import Mathlib

set_option maxHeartbeats 1000000

namespace SanicTls

/-! Shallow embedding of the TLS certificate-selection subsystem in
src/sanic/http/tls.py: hostname matching (`match_hostname`), selector
construction (`CertSelector.__init__`), per-connection certificate lookup
(`find_cert`), the SNI callbacks, and identity construction
(`CertSimple.__new__`).  Python strings are modelled as Lean strings,
Python `None` as `Option.none`, and raised exceptions as `Except.error`. -/

/-- Python truthiness of an optional string: `None` and the empty string
are falsy, everything else is truthy. -/
def pyTruthy : Option String → Bool
  | none => false
  | some s => !(s == "")

/-- Python `a or b` on optional string values: `a` when truthy, else `b`. -/
def pyOr (a b : Option String) : Option String :=
  if pyTruthy a then a else b

/-- Characters of a string strictly after its first dot, when a dot exists. -/
def afterDot : List Char → Option (List Char)
  | [] => none
  | c :: rest => if c = '.' then some rest else afterDot rest

/-- Models Python `hostname.split(".", 1)[-1]`: everything after the first
dot, or the whole string when there is no dot. -/
def splitDotRest (cs : List Char) : List Char :=
  (afterDot cs).getD cs

/-- ASCII lower-casing of one character, as Python `str.lower` acts on the
ASCII range (the only range exercised by this module). -/
def lowerChar (c : Char) : Char :=
  if 65 ≤ c.toNat && c.toNat ≤ 90 then Char.ofNat (c.toNat + 32) else c

/-- Models Python `hostname.lower()` character by character. -/
def lowerStr (s : String) : String :=
  String.mk (s.data.map lowerChar)

/-- Models Python `name.startswith("*.")`. -/
def startsWithStarDot : List Char → Bool
  | '*' :: '.' :: _ => true
  | _ => false

/-- One iteration of the loop body of `match_hostname`: a wildcard served
name compares its suffix (the name without the leading `*.`) with the part
of the lowered hostname after its first dot; any other served name is
compared for plain equality with the lowered hostname. -/
def nameMatches (name h : String) : Bool :=
  if startsWithStarDot name.data then splitDotRest h.data == name.data.drop 2
  else name == h

/-- Embeds `match_hostname` of src/sanic/http/tls.py.  `names` is the list
`dict(getattr(ctx, "sanic", \x7b\x7d)).get("names", [])` (empty when the
attribute or the key is absent); the hostname is lowered first and the
served names are scanned in order. -/
def match_hostname (names : List String) (hostname : String) : Bool :=
  names.any (fun name => nameMatches name (lowerStr hostname))

/-- An SSLContext as the selector observes it: the `sanic["names"]` list
(empty when the attribute or the key is missing) plus a tag that stands for
the identity of the underlying context object. -/
structure SSLCtx where
  names : List String
  tag : Nat
deriving DecidableEq

/-- The distinct failure modes raised (all as `ValueError` at runtime) by
selector construction, certificate lookup, and identity construction. -/
inductive TlsError where
  | noSni
  | noMatching (sni : String)
  | configError
  | invalidArgument
deriving DecidableEq

/-- State built by `CertSelector.__init__`: the surviving contexts in
registration order and the fallback context, when any. -/
structure CertSelector where
  sanic_select : List SSLCtx
  sanic_fallback : Option SSLCtx
deriving DecidableEq

/-- The loop of `CertSelector.__init__`, carrying the enumeration index:
returns `(sanic_select, sanic_fallback, all_names)` as left by the loop. -/
def selectorScan : List (Option SSLCtx) → Nat →
    List SSLCtx × Option SSLCtx × List String
  | [], _ => ([], none, [])
  | none :: rest, i => selectorScan rest (i + 1)
  | some ctx :: rest, i =>
      let r := selectorScan rest (i + 1)
      (ctx :: r.1, if i = 0 then some ctx else r.2.1, ctx.names ++ r.2.2)

/-- Embeds `CertSelector.__init__`: falsy entries are skipped, surviving
contexts are kept in order, the fallback is the entry at original index 0
when it survives, and construction raises when `all_names` ends up empty. -/
def CertSelector_init (ctxs : List (Option SSLCtx)) :
    Except TlsError CertSelector :=
  let r := selectorScan ctxs 0
  if r.2.2 == [] then Except.error TlsError.configError
  else Except.ok ⟨r.1, r.2.1⟩

/-- Embeds `find_cert` of src/sanic/http/tls.py.  `server_name` is the SNI
value handed to the callback, `none` when the client sent no SNI. -/
def find_cert (s : CertSelector) (server_name : Option String) :
    Except TlsError SSLCtx :=
  if !(pyTruthy server_name) then
    match s.sanic_fallback with
    | some fb => Except.ok fb
    | none => Except.error TlsError.noSni
  else
    let n := server_name.getD ""
    match s.sanic_select.find? (fun ctx => match_hostname ctx.names n) with
    | some ctx => Except.ok ctx
    | none =>
        match s.sanic_fallback with
        | some fb => Except.ok fb
        | none => Except.error (TlsError.noMatching n)

/-- The context installed on one handshake object: initially the selector,
replaced by a plain context when lookup succeeds. -/
inductive HandshakeCtx where
  | selector (s : CertSelector)
  | simple (c : SSLCtx)
deriving DecidableEq

/-- The mutable state of one `ssl.SSLObject` that the callbacks touch:
its active context and the `sanic_server_name` attribute (outer `none`
while the attribute has not been written yet). -/
structure SSLObj where
  context : HandshakeCtx
  sanic_server_name : Option (Option String)
deriving DecidableEq

/-- Numeric value of `ssl.ALERT_DESCRIPTION_UNRECOGNIZED_NAME`. -/
def ALERT_DESCRIPTION_UNRECOGNIZED_NAME : Nat := 112

/-- Embeds `server_name_callback`: stores the received SNI (raw, possibly
`None`) as `sslobj.sanic_server_name`. -/
def server_name_callback (sslobj : SSLObj) (server_name : Option String) :
    SSLObj :=
  { sslobj with sanic_server_name := some server_name }

/-- Embeds `selector_sni_callback`: first records the SNI via
`server_name_callback`, then installs the matching context on success or
returns the unrecognized-name alert code when `find_cert` raises. -/
def selector_sni_callback (sslobj : SSLObj) (server_name : Option String)
    (ctx : CertSelector) : SSLObj × Option Nat :=
  let obj := server_name_callback sslobj server_name
  match find_cert ctx server_name with
  | Except.ok newctx => ({ obj with context := HandshakeCtx.simple newctx }, none)
  | Except.error _ => (obj, some ALERT_DESCRIPTION_UNRECOGNIZED_NAME)

/-- The data `ssl._ssl._test_decode_cert` yields, restricted to the fields
`CertSimple.__new__` reads: the subjectAltName entries as (type, name)
pairs and the flattened subject key-value pairs. -/
structure CertInfo where
  subjectAltName : List (String × String)
  subject : List (String × String)
deriving DecidableEq

/-- Result of `CertSimple.__new__`: the resolved cert/key paths, the served
names, the certificate-subject attributes that seed the `sanic` dict, and
the remaining caller-supplied keyword entries. -/
structure Identity where
  cert : String
  key : String
  names : List String
  subjectAttrs : List (String × String)
  extra : List (String × String)
deriving DecidableEq

/-- Embeds `CertSimple.__new__` of src/sanic/http/tls.py.  `decode` stands
for `ssl._ssl._test_decode_cert`; `cert` and `key` are the positional
parameters; `certificate`, `keyfile` and `password` are the keyword entries
popped from `kw` (absent modelled as `none`, the pop default); `names` is
the optional explicit override and `extra` the remaining keyword entries. -/
def CertSimple_new (decode : String → CertInfo) (cert key : Option String)
    (certificate keyfile _password : Option String)
    (names : Option (List String)) (extra : List (String × String)) :
    Except TlsError Identity :=
  let certfile := pyOr certificate cert
  let keyfile2 := pyOr keyfile key
  if !(pyTruthy certfile) || !(pyTruthy keyfile2) then
    Except.error TlsError.invalidArgument
  else
    match names with
    | some ns =>
        Except.ok ⟨certfile.getD "", keyfile2.getD "", ns, [], extra⟩
    | none =>
        let info := decode (certfile.getD "")
        Except.ok ⟨certfile.getD "", keyfile2.getD "",
          (info.subjectAltName.filter
            (fun p => p.1 == "DNS" || p.1 == "IP Address")).map Prod.snd,
          info.subject, extra⟩

/-- Spec-side helper: the fallback the spec describes, namely the entry at
original index 0 of the caller-supplied list when that entry is present. -/
def firstEntryFallback (ctxs : List (Option SSLCtx)) : Option SSLCtx :=
  match ctxs with
  | some c :: _ => some c
  | _ => none

/-- A served name of the wildcard form `*.<suffix>`. -/
def isWildcardName (name : String) : Bool :=
  startsWithStarDot name.data

/-- No served name in the list is a wildcard entry. -/
def noWildcards (names : List String) : Bool :=
  names.all (fun n => !(isWildcardName n))

/-- A trivial certificate decoder used by concrete instances. -/
def decode0 : String → CertInfo := fun _ => ⟨[], []⟩

/-- A second, different certificate decoder used to show that a decoder is
never consulted when explicit names are supplied. -/
def decodeEvil : String → CertInfo :=
  fun _ => ⟨[("DNS", "evil.test")], [("commonName", "Evil")]⟩

/-- Concrete context serving `x.com`, used by concrete instances. -/
def ctxA : SSLCtx := ⟨["x.com"], 0⟩

/-- Concrete context serving `y.com`, used by concrete instances. -/
def ctxB : SSLCtx := ⟨["y.com"], 1⟩

/-! Theorems. -/

/-- Helper: on a wildcard served name the loop body compares the part of
the lowered hostname after its first dot with the suffix of the name. -/
lemma nameMatches_wildcard (suffix : List Char) (h : String) :
    nameMatches (String.mk ('*' :: '.' :: suffix)) h =
      (splitDotRest h.data == suffix) := rfl

/-- Helper: on a non-wildcard served name the loop body is plain equality
with the lowered hostname. -/
lemma nameMatches_plain (name h : String) (hw : isWildcardName name = false) :
    nameMatches name h = (name == h) := by
  unfold nameMatches
  unfold isWildcardName at hw
  simp [hw]

/-- C1 counterexample: the claim requires a matched hostname to contain at
least one dot, but the code matches the served name `*.com` against the
dot-free hostname `com`, because Python split(".", 1) leaves a dot-free
string whole. -/
theorem wildcard_counterexample :
    match_hostname ["*.com"] "com" = true ∧
    ("com" : String).data.contains '.' = false := by
  exact ⟨by decide, by decide⟩

/-- C1 (amended): a wildcard entry `*.suffix` matches exactly when the
lowered hostname has a dot and its part after the first dot equals the
suffix, or the hostname has no dot and the whole lowered hostname equals
the suffix; the four concrete examples of the claim all hold. -/
theorem wildcard_match_characterization (suffix hostname : String) :
    (match_hostname [String.mk ('*' :: '.' :: suffix.data)] hostname = true ↔
      (afterDot (lowerStr hostname).data = some suffix.data ∨
        (afterDot (lowerStr hostname).data = none ∧ lowerStr hostname = suffix))) ∧
    match_hostname ["*.example.com"] "foo.example.com" = true ∧
    match_hostname ["*.example.com"] "example.com" = false ∧
    match_hostname ["*.example.com"] "foo.bar.example.com" = false ∧
    match_hostname ["*.example.com"] "evilexample.com" = false := by
  refine ⟨?_, by decide, by decide, by decide, by decide⟩
  unfold match_hostname
  simp only [List.any_cons, List.any_nil, Bool.or_false]
  rw [nameMatches_wildcard]
  unfold splitDotRest
  cases heq : afterDot (lowerStr hostname).data with
  | some t => simp [heq, beq_iff_eq]
  | none =>
      simp only [heq, Option.getD_none, beq_iff_eq]
      constructor
      · intro hd
        exact Or.inr ⟨trivial, String.ext hd⟩
      · rintro (hc | ⟨-, hs⟩)
        · exact absurd hc (by simp)
        · exact congrArg String.data hs

/-- C2 counterexample: the claim makes matching case-insensitive on the
served-name side as well, but the code compares served names as stored:
`EXAMPLE.COM` and `example.com` case-fold to the same name, the list has
no wildcard entry, yet `match_hostname` returns false. -/
theorem exact_match_counterexample :
    noWildcards ["EXAMPLE.COM"] = true ∧
    match_hostname ["EXAMPLE.COM"] "example.com" = false ∧
    lowerStr "EXAMPLE.COM" = lowerStr "example.com" := by
  exact ⟨by decide, by decide, by decide⟩

/-- C2 (amended): when the served names contain no wildcard entry,
`match_hostname` returns true exactly when the lower-cased hostname is
present, as stored, in the served-names list: the hostname side is
case-insensitive, the served-name side is compared verbatim. -/
theorem exact_match_characterization (names : List String) (hostname : String)
    (hw : noWildcards names = true) :
    match_hostname names hostname = true ↔ lowerStr hostname ∈ names := by
  unfold match_hostname
  rw [List.any_eq_true]
  unfold noWildcards at hw
  rw [List.all_eq_true] at hw
  constructor
  · rintro ⟨name, hmem, hm⟩
    have h1 : isWildcardName name = false := by simpa using hw name hmem
    rw [nameMatches_plain name _ h1, beq_iff_eq] at hm
    exact hm ▸ hmem
  · intro hmem
    refine ⟨lowerStr hostname, hmem, ?_⟩
    have h1 : isWildcardName (lowerStr hostname) = false := by
      simpa using hw _ hmem
    rw [nameMatches_plain _ _ h1, beq_iff_eq]

/-- C2 witness: the amended characterization applied to the served names
`[example.com]` and the hostname `Example.COM`. -/
theorem exact_match_characterization_witness :
    noWildcards ["example.com"] = true ∧
    (match_hostname ["example.com"] "Example.COM" = true ↔
      lowerStr "Example.COM" ∈ ["example.com"]) :=
  ⟨by decide, exact_match_characterization ["example.com"] "Example.COM" (by decide)⟩

/-- Helper: the select list built by the construction loop is the caller
list with falsy entries removed, in order. -/
lemma selectorScan_fst (ctxs : List (Option SSLCtx)) (i : Nat) :
    (selectorScan ctxs i).1 = ctxs.filterMap id := by
  induction ctxs generalizing i with
  | nil => rfl
  | cons c rest ih =>
      cases c with
      | none => simpa [selectorScan, List.filterMap_cons] using ih (i + 1)
      | some ctx => simp [selectorScan, List.filterMap_cons, ih (i + 1)]

/-- Helper: once past original index 0 the loop never sets the fallback. -/
lemma selectorScan_fallback_pos (ctxs : List (Option SSLCtx)) (i : Nat)
    (h : i ≠ 0) : (selectorScan ctxs i).2.1 = none := by
  induction ctxs generalizing i with
  | nil => rfl
  | cons c rest ih =>
      cases c with
      | none => exact ih (i + 1) (by simp)
      | some ctx => simp [selectorScan, h, ih (i + 1) (by simp)]

/-- Helper: started at index 0, the loop leaves as fallback exactly the
entry at original index 0 when that entry is truthy. -/
lemma selectorScan_fallback_zero (ctxs : List (Option SSLCtx)) :
    (selectorScan ctxs 0).2.1 = firstEntryFallback ctxs := by
  cases ctxs with
  | nil => rfl
  | cons c rest =>
      cases c with
      | none => exact selectorScan_fallback_pos rest 1 one_ne_zero
      | some ctx => rfl

/-- Helper: the accumulated `all_names` list is empty exactly when every
surviving entry has an empty names list. -/
lemma selectorScan_names_nil (ctxs : List (Option SSLCtx)) (i : Nat) :
    (selectorScan ctxs i).2.2 = [] ↔
      ∀ c ∈ ctxs.filterMap id, c.names = [] := by
  induction ctxs generalizing i with
  | nil => simp [selectorScan]
  | cons c rest ih =>
      cases c with
      | none => simpa [selectorScan, List.filterMap_cons] using ih (i + 1)
      | some ctx =>
          simp [selectorScan, List.filterMap_cons, List.append_eq_nil,
            ih (i + 1)]

/-- C3: with no SNI, `find_cert` returns the fallback when set and fails
with the no-SNI error otherwise; with a (nonempty) SNI it returns the
first entry in registration order whose names match, then the fallback
when none matches, and otherwise fails with the no-matching error that
names the SNI. -/
theorem find_cert_characterization (s : CertSelector) (n : String)
    (hn : n ≠ "") :
    find_cert s none = (match s.sanic_fallback with
      | some fb => Except.ok fb
      | none => Except.error TlsError.noSni) ∧
    find_cert s (some n) =
      (match s.sanic_select.find? (fun ctx => match_hostname ctx.names n) with
      | some c => Except.ok c
      | none => (match s.sanic_fallback with
          | some fb => Except.ok fb
          | none => Except.error (TlsError.noMatching n))) := by
  refine ⟨rfl, ?_⟩
  have hc : pyTruthy (some n) = true := by simp [pyTruthy, hn]
  unfold find_cert
  rw [hc]
  rfl

/-- C3 witness: the characterization applied to the selector holding
`ctxA` and `ctxB` with fallback `ctxA`, at SNI `x.com`. -/
theorem find_cert_characterization_witness :
    find_cert ⟨[ctxA, ctxB], some ctxA⟩ none = Except.ok ctxA ∧
    find_cert ⟨[ctxA, ctxB], some ctxA⟩ (some "x.com") = Except.ok ctxA :=
  find_cert_characterization ⟨[ctxA, ctxB], some ctxA⟩ "x.com" (by decide)

/-- C4: selector construction keeps the truthy entries in order, sets the
fallback to the original index-0 entry exactly when that entry survives,
and the two-entry example of the claim selects as listed. -/
theorem selector_init_characterization (ctxs : List (Option SSLCtx))
    (s : CertSelector) (h : CertSelector_init ctxs = Except.ok s) :
    s.sanic_select = ctxs.filterMap id ∧
    s.sanic_fallback = firstEntryFallback ctxs ∧
    CertSelector_init [some ctxA, some ctxB] =
      Except.ok ⟨[ctxA, ctxB], some ctxA⟩ ∧
    find_cert ⟨[ctxA, ctxB], some ctxA⟩ (some "x.com") = Except.ok ctxA ∧
    find_cert ⟨[ctxA, ctxB], some ctxA⟩ (some "y.com") = Except.ok ctxB ∧
    find_cert ⟨[ctxA, ctxB], some ctxA⟩ (some "z.com") = Except.ok ctxA ∧
    find_cert ⟨[ctxA, ctxB], some ctxA⟩ none = Except.ok ctxA := by
  have hs : s = ⟨(selectorScan ctxs 0).1, (selectorScan ctxs 0).2.1⟩ := by
    unfold CertSelector_init at h
    by_cases hc : (selectorScan ctxs 0).2.2 = []
    · simp [hc] at h
    · simp [hc] at h
      exact h.symm
  refine ⟨?_, ?_, rfl, rfl, rfl, rfl, rfl⟩
  · rw [hs]
    exact selectorScan_fst ctxs 0
  · rw [hs]
    exact selectorScan_fallback_zero ctxs

/-- C4 witness: the characterization applied to the caller list
`[some ctxA, some ctxB]` and the selector it constructs. -/
theorem selector_init_characterization_witness :
    (⟨[ctxA, ctxB], some ctxA⟩ : CertSelector).sanic_select = [ctxA, ctxB] ∧
    (⟨[ctxA, ctxB], some ctxA⟩ : CertSelector).sanic_fallback = some ctxA ∧
    CertSelector_init [some ctxA, some ctxB] =
      Except.ok ⟨[ctxA, ctxB], some ctxA⟩ ∧
    find_cert ⟨[ctxA, ctxB], some ctxA⟩ (some "x.com") = Except.ok ctxA ∧
    find_cert ⟨[ctxA, ctxB], some ctxA⟩ (some "y.com") = Except.ok ctxB ∧
    find_cert ⟨[ctxA, ctxB], some ctxA⟩ (some "z.com") = Except.ok ctxA ∧
    find_cert ⟨[ctxA, ctxB], some ctxA⟩ none = Except.ok ctxA :=
  selector_init_characterization [some ctxA, some ctxB]
    ⟨[ctxA, ctxB], some ctxA⟩ rfl

/-- C5: construction fails with the configuration error exactly when every
surviving entry carries an empty names list (the union of served names is
empty); with at least one surviving non-empty entry it succeeds, and the
all-empty and all-absent lists fail. -/
theorem selector_init_error_characterization (ctxs : List (Option SSLCtx)) :
    (CertSelector_init ctxs = Except.error TlsError.configError ↔
      ∀ c ∈ ctxs.filterMap id, c.names = []) ∧
    ((∃ c ∈ ctxs.filterMap id, c.names ≠ []) →
      ∃ s, CertSelector_init ctxs = Except.ok s) ∧
    CertSelector_init [] = Except.error TlsError.configError ∧
    CertSelector_init [none] = Except.error TlsError.configError := by
  refine ⟨?_, ?_, rfl, rfl⟩
  · rw [← selectorScan_names_nil ctxs 0]
    unfold CertSelector_init
    by_cases hc : (selectorScan ctxs 0).2.2 = []
    · simp [hc]
    · simp [hc]
  · rintro ⟨c, hcmem, hne⟩
    have hc : ¬ ((selectorScan ctxs 0).2.2 = []) := by
      rw [selectorScan_names_nil ctxs 0]
      intro hall
      exact hne (hall c hcmem)
    refine ⟨⟨(selectorScan ctxs 0).1, (selectorScan ctxs 0).2.1⟩, ?_⟩
    unfold CertSelector_init
    simp [hc]

/-- C6: the selection callback records the raw SNI value on the handshake
object, and the recorded value survives on every outcome path: a match, a
fallback, and a rejection all leave `sanic_server_name` set to the SNI. -/
theorem sni_recorded_always (sslobj : SSLObj) (server_name : Option String)
    (ctx : CertSelector) :
    (selector_sni_callback sslobj server_name ctx).1.sanic_server_name =
      some server_name ∧
    (server_name_callback sslobj server_name).sanic_server_name =
      some server_name := by
  refine ⟨?_, rfl⟩
  unfold selector_sni_callback
  cases hfc : find_cert ctx server_name <;> simp [hfc, server_name_callback]

/-- C7 counterexample: a mapping whose cert resolves to a non-empty value
but whose key resolves to nothing.  The claim only fails when neither
value resolves, so it predicts delegation here, but the code raises the
invalid-argument error. -/
theorem certsimple_counterexample :
    CertSimple_new decode0 (some "c.pem") none none none none none [] =
      Except.error TlsError.invalidArgument ∧
    pyTruthy (pyOr none (some "c.pem")) = true :=
  ⟨rfl, by decide⟩

/-- C7 (amended): alias resolution prefers a truthy `certificate` over
`cert` and a truthy `keyfile` over `key`, construction fails with the
invalid-argument error exactly when either of the two resolved values is
falsy, and on success the identity carries the resolved paths. -/
theorem certsimple_alias_characterization (decode : String → CertInfo)
    (cert key certificate keyfile password : Option String)
    (names : Option (List String)) (extra : List (String × String)) :
    (CertSimple_new decode cert key certificate keyfile password names extra =
        Except.error TlsError.invalidArgument ↔
      (pyTruthy (pyOr certificate cert) = false ∨
        pyTruthy (pyOr keyfile key) = false)) ∧
    (∀ idt,
      CertSimple_new decode cert key certificate keyfile password names extra =
        Except.ok idt →
      idt.cert = (pyOr certificate cert).getD "" ∧
      idt.key = (pyOr keyfile key).getD "") := by
  constructor
  · unfold CertSimple_new
    by_cases h1 : pyTruthy (pyOr certificate cert)
    · by_cases h2 : pyTruthy (pyOr keyfile key)
      · cases names <;> simp [h1, h2]
      · simp at h2
        cases names <;> simp [h1, h2]
    · simp at h1
      cases names <;> simp [h1]
  · intro idt h
    unfold CertSimple_new at h
    by_cases h1 : pyTruthy (pyOr certificate cert)
    · by_cases h2 : pyTruthy (pyOr keyfile key)
      · cases names with
        | none =>
            simp [h1, h2] at h
            rw [← h]
            exact ⟨rfl, rfl⟩
        | some ns =>
            simp [h1, h2] at h
            rw [← h]
            exact ⟨rfl, rfl⟩
      · simp at h2
        simp [h1, h2] at h
    · simp at h1
      simp [h1] at h

/-- C8: selection is deterministic: `find_cert` is a function of the
selector state and the SNI alone, so two calls with the same SNI against
the same selector return the same result, successful or failing alike. -/
theorem find_cert_deterministic (s : CertSelector) (a b : Option String)
    (h : a = b) : find_cert s a = find_cert s b := by
  rw [h]

/-- C8 witness: two calls at SNI `x.com` against the one-entry selector. -/
theorem find_cert_deterministic_witness :
    (some "x.com" : Option String) = some "x.com" ∧
    find_cert ⟨[ctxA], some ctxA⟩ (some "x.com") =
      find_cert ⟨[ctxA], some ctxA⟩ (some "x.com") :=
  ⟨rfl, find_cert_deterministic ⟨[ctxA], some ctxA⟩ (some "x.com")
    (some "x.com") rfl⟩

/-- C9: an empty SNI string takes the exact path of an absent SNI: the
result equals the absent-SNI result, it does not depend on the entry list
(the same selector with its entries removed answers identically, even
though an entry could serve the empty name), and it is the fallback when
set and the no-SNI error otherwise. -/
theorem empty_sni_like_absent (s : CertSelector) :
    find_cert s (some "") = find_cert s none ∧
    find_cert s (some "") = find_cert ⟨[], s.sanic_fallback⟩ (some "") ∧
    find_cert s (some "") = (match s.sanic_fallback with
      | some fb => Except.ok fb
      | none => Except.error TlsError.noSni) :=
  ⟨rfl, rfl, rfl⟩

/-- C10: with an explicit names override the certificate decoder is never
consulted (any two decoders produce the same result), the served names of
the constructed identity are exactly the caller-supplied list, and its
attributes carry no certificate-subject field. -/
theorem names_override_characterization (decode1 decode2 : String → CertInfo)
    (cert key certificate keyfile password : Option String)
    (ns : List String) (extra : List (String × String)) (idt : Identity)
    (h : CertSimple_new decode1 cert key certificate keyfile password
        (some ns) extra = Except.ok idt) :
    CertSimple_new decode1 cert key certificate keyfile password
        (some ns) extra =
      CertSimple_new decode2 cert key certificate keyfile password
        (some ns) extra ∧
    idt.names = ns ∧ idt.subjectAttrs = [] := by
  refine ⟨rfl, ?_⟩
  unfold CertSimple_new at h
  by_cases h1 : (!(pyTruthy (pyOr certificate cert)) ||
      !(pyTruthy (pyOr keyfile key))) = true
  · rw [if_pos h1] at h
    exact absurd h (by simp)
  · rw [if_neg h1] at h
    simp at h
    rw [← h]
    exact ⟨rfl, rfl⟩

/-- C10 witness: the characterization applied to a mapping with explicit
names `[x.com]`, compared across two different decoders. -/
theorem names_override_characterization_witness :
    CertSimple_new decode0 (some "c.pem") (some "k.pem") none none none
        (some ["x.com"]) [] =
      CertSimple_new decodeEvil (some "c.pem") (some "k.pem") none none none
        (some ["x.com"]) [] ∧
    Identity.names ⟨"c.pem", "k.pem", ["x.com"], [], []⟩ = ["x.com"] ∧
    Identity.subjectAttrs ⟨"c.pem", "k.pem", ["x.com"], [], []⟩ = [] :=
  names_override_characterization decode0 decodeEvil (some "c.pem")
    (some "k.pem") none none none ["x.com"] []
    ⟨"c.pem", "k.pem", ["x.com"], [], []⟩ rfl

end SanicTls
